import Mathlib

/-!
Verification of the interactive-editing core of the LaTex_Generator
whiteboard application (src/canvas.py, src/handles.py, src/items.py).

Coordinates and scalar quantities are modelled as real numbers; the
fallible finalization steps return `Option`.  The eraser hit-testing
model uses rational coordinates so that concrete runs are decidable.
-/

noncomputable section

/-! ## Geometry and grid utilities (items.py, canvas.py helpers) -/

/-- Python `round`: round half to even (banker's rounding), as applied to
the real value of a float. -/
def pyRound (x : ℝ) : ℤ :=
  if Int.fract x < 1/2 then ⌊x⌋
  else if 1/2 < Int.fract x then ⌊x⌋ + 1
  else if Even ⌊x⌋ then ⌊x⌋ else ⌊x⌋ + 1

/-- One coordinate of `snap_to_grid` (items.py line 15):
`round(p.x() / grid) * grid`. -/
def snapCoord (x : ℝ) (g : ℤ) : ℝ :=
  ((pyRound (x / (g : ℝ)) : ℤ) : ℝ) * (g : ℝ)

/-- `snap_to_grid(p, grid)` from items.py: rounds both coordinates to the
nearest multiple of the grid size. -/
def snapPoint (p : ℝ × ℝ) (g : ℤ) : ℝ × ℝ :=
  (snapCoord p.1 g, snapCoord p.2 g)

/-- Python float `x % y` (for `y > 0`): `x - y * ⌊x / y⌋`. -/
def pymod (x y : ℝ) : ℝ := x - y * ⌊x / y⌋

/-- `math.atan2(y, x)` modelled through the complex argument, which has the
same value and the same range `(-π, π]`. -/
def atan2 (y x : ℝ) : ℝ := Complex.arg ⟨x, y⟩

/-- `_deg_from(p, c)` (canvas.py line 35): angle in degrees from center `c`
to point `p`, `0°` at `+X`, CCW positive. -/
def deg_from (p c : ℝ × ℝ) : ℝ :=
  atan2 (p.2 - c.2) (p.1 - c.1) * 180 / Real.pi

/-- `_ccw_span(start_deg, end_deg)` (canvas.py line 40): CCW sweep from
start to end, `(end_deg - start_deg) % 360.0`. -/
def ccw_span (startDeg endDeg : ℝ) : ℝ := pymod (endDeg - startDeg) 360

/-- `math.hypot(x, y)`. -/
def hypotR (x y : ℝ) : ℝ := Real.sqrt (x ^ 2 + y ^ 2)

/-- `clamp(v, lo, hi)` (handles.py line 19): `max(lo, min(hi, v))`. -/
def clamp (v lo hi : ℝ) : ℝ := max lo (min hi v)

/-! ### Basic lemmas about the utilities -/

lemma pymod_eq_fract (x : ℝ) : pymod x 360 = 360 * Int.fract (x / 360) := by
  unfold pymod Int.fract
  field_simp

lemma pymod_nonneg (x : ℝ) : 0 ≤ pymod x 360 := by
  rw [pymod_eq_fract]
  exact mul_nonneg (by norm_num) (Int.fract_nonneg _)

lemma pymod_lt (x : ℝ) : pymod x 360 < 360 := by
  rw [pymod_eq_fract]
  calc 360 * Int.fract (x / 360) < 360 * 1 :=
        mul_lt_mul_of_pos_left (Int.fract_lt_one _) (by norm_num)
    _ = 360 := by norm_num

lemma ccw_span_nonneg (s e : ℝ) : 0 ≤ ccw_span s e := pymod_nonneg _

lemma ccw_span_lt (s e : ℝ) : ccw_span s e < 360 := pymod_lt _

lemma pyRound_intCast (k : ℤ) : pyRound (k : ℝ) = k := by
  unfold pyRound
  rw [Int.fract_intCast, Int.floor_intCast]
  norm_num

lemma clamp_mem (v lo hi : ℝ) (h : lo ≤ hi) :
    lo ≤ clamp v lo hi ∧ clamp v lo hi ≤ hi :=
  ⟨le_max_left _ _, max_le h (min_le_left _ _)⟩

lemma clamp_eq_self (v lo hi : ℝ) (h1 : lo ≤ v) (h2 : v ≤ hi) :
    clamp v lo hi = v := by
  unfold clamp
  rw [min_eq_right h2, max_eq_right h1]

lemma foldl_preserves {α β : Type} (P : β → Prop) (f : β → α → β)
    (hf : ∀ b a, P b → P (f b a)) :
    ∀ (l : List α) (b : β), P b → P (l.foldl f b) := by
  intro l
  induction l with
  | nil => intro b hb; exact hb
  | cons a t ih => intro b hb; exact ih (f b a) (hf b a hb)

/-! ## Arc tool finalization (canvas.py, `_arc_finalize`) -/

/-- The end position used by `_arc_finalize`: snapped to the grid unless
the Alt modifier is held (canvas.py lines 599-600). -/
def arcEndPoint (endPos : ℝ × ℝ) (alt : Bool) : ℝ × ℝ :=
  if alt then endPos else snapPoint endPos 20

/-- Signed sweep chosen in `_arc_finalize` (canvas.py lines 610-615) from
the CCW span: Ctrl selects CCW (positive), default is CW (negative);
Shift switches to the major arc by adding or subtracting a full turn. -/
def finalSweep (span : ℝ) (ctrl shift : Bool) : ℝ :=
  let sweep0 := if ctrl then span else -span
  if shift then (if 0 ≤ sweep0 then sweep0 - 360 else sweep0 + 360) else sweep0

/-- The data of a finalized `ArcItem` together with its selection state
(`arc.setSelected(True)`, canvas.py line 620). -/
structure ArcFinal where
  center : ℝ × ℝ
  radius : ℝ
  startDeg : ℝ
  sweep : ℝ
  selected : Bool

/-- `_arc_finalize(end_pos)` (canvas.py lines 591-620): snap the end point
unless Alt is held, drop the arc when the radius is below 1, otherwise
build the arc from the CCW start angle and the modifier-chosen sweep and
select it. -/
def arcFinalize (c s endPos : ℝ × ℝ) (ctrl alt shift : Bool) : Option ArcFinal :=
  if hypotR (s.1 - c.1) (s.2 - c.2) < 1 then none
  else
    some ⟨c, hypotR (s.1 - c.1) (s.2 - c.2), deg_from s c,
      finalSweep (ccw_span (deg_from s c) (deg_from (arcEndPoint endPos alt) c))
        ctrl shift, true⟩

lemma finalSweep_bounds (span : ℝ) (h0 : 0 ≤ span) (h1 : span < 360)
    (ctrl shift : Bool) :
    |finalSweep span ctrl shift| ≤ 360 ∧
      (shift = true → 0 < |finalSweep span ctrl shift|) ∧
      (shift = false → |finalSweep span ctrl shift| < 360) := by
  unfold finalSweep
  cases ctrl <;> cases shift <;> simp only [if_true, if_false, Bool.false_eq_true,
    ite_true, ite_false] <;>
    [skip; skip; skip; skip]
  · refine ⟨?_, by simp, ?_⟩
    · rw [abs_neg, abs_of_nonneg h0]; linarith
    · intro _; rw [abs_neg, abs_of_nonneg h0]; exact h1
  · refine ⟨?_, ?_, by simp⟩
    · rcases le_or_lt 0 (-span) with h | h
      · rw [if_pos h]
        have : span = 0 := le_antisymm (by linarith) h0
        rw [this]; norm_num
      · rw [if_neg (not_le.mpr h)]
        rw [abs_of_nonneg (by linarith)]; linarith
    · intro _
      rcases le_or_lt 0 (-span) with h | h
      · rw [if_pos h]
        have : span = 0 := le_antisymm (by linarith) h0
        rw [this]; norm_num
      · rw [if_neg (not_le.mpr h)]
        rw [abs_of_nonneg (by linarith)]; linarith
  · refine ⟨?_, by simp, ?_⟩
    · rw [abs_of_nonneg h0]; linarith
    · intro _; rw [abs_of_nonneg h0]; exact h1
  · rw [if_pos h0]
    refine ⟨?_, ?_, by simp⟩
    · rw [abs_of_nonpos (by linarith)]; linarith
    · intro _; rw [abs_of_nonpos (by linarith)]; linarith

/-! ### Concrete evaluations used for witnesses and counterexamples -/

lemma snapCoord_int_mul (k g : ℤ) (hg : (g : ℝ) ≠ 0) :
    snapCoord ((k : ℝ) * (g : ℝ)) g = (k : ℝ) * (g : ℝ) := by
  unfold snapCoord
  rw [mul_div_assoc, div_self hg, mul_one, pyRound_intCast]

lemma snapCoord_twenty : snapCoord 20 20 = 20 := by
  have h := snapCoord_int_mul 1 20 (by norm_num)
  push_cast at h
  simpa using h

lemma snapCoord_zero : snapCoord 0 20 = 0 := by
  have h := snapCoord_int_mul 0 20 (by norm_num)
  push_cast at h
  simpa using h

lemma atan2_zero_twenty : atan2 0 20 = 0 := by
  unfold atan2
  have h : (⟨20, 0⟩ : ℂ) = ((20 : ℝ) : ℂ) := by
    apply Complex.ext <;> simp
  rw [h]
  exact Complex.arg_ofReal_of_nonneg (by norm_num)

lemma deg_from_east : deg_from (20, 0) (0, 0) = 0 := by
  unfold deg_from
  norm_num [atan2_zero_twenty]

lemma hypotR_twenty : hypotR 20 0 = 20 := by
  unfold hypotR
  rw [show ((20 : ℝ) ^ 2 + 0 ^ 2) = 20 ^ 2 by norm_num]
  exact Real.sqrt_sq (by norm_num)

lemma pymod_zero : pymod 0 360 = 0 := by
  unfold pymod
  norm_num

lemma ccw_span_zero : ccw_span 0 0 = 0 := by
  unfold ccw_span
  simpa using pymod_zero

lemma finalSweep_zero : finalSweep 0 false false = 0 := by
  unfold finalSweep
  norm_num

lemma arcEndPoint_example : arcEndPoint (20, 0) false = ((20 : ℝ), (0 : ℝ)) := by
  unfold arcEndPoint snapPoint
  simp only [Bool.false_eq_true, if_false]
  rw [snapCoord_twenty, snapCoord_zero]

/-- Finalizing the arc with center `(0,0)`, start `(20,0)` and end click at
the start point itself, with no modifiers, yields an arc of radius 20,
start angle 0, sweep 0, and selected state `true`. -/
lemma arcFinalize_example :
    arcFinalize (0, 0) (20, 0) (20, 0) false false false =
      some ⟨(0, 0), 20, 0, 0, true⟩ := by
  unfold arcFinalize
  rw [arcEndPoint_example]
  dsimp only
  rw [show (20 : ℝ) - 0 = 20 by norm_num, show (0 : ℝ) - 0 = 0 by norm_num,
    hypotR_twenty]
  rw [if_neg (by norm_num : ¬ (20 : ℝ) < 1)]
  rw [deg_from_east, ccw_span_zero, finalSweep_zero]

/-! ## Line tool (canvas.py `_start_line`/`_finish_line`, items.py `LineItem`) -/

/-- The state of a `LineItem` relevant here: endpoints, the capability
flags set by its constructor (items.py lines 248-249), and its selection
state (Qt items start unselected and nothing selects it). -/
structure LineRec where
  p0 : ℝ × ℝ
  p1 : ℝ × ℝ
  selectable : Bool
  movable : Bool
  selected : Bool

/-- `LineItem(p1, p2)` construction: explicitly non-selectable and
non-movable, initially unselected. -/
def mkLineItem (p0 p1 : ℝ × ℝ) : LineRec := ⟨p0, p1, false, false, false⟩

/-- `self._line_item.setLine(QLineF(self._line_p0, p1))` from
`_update_line`. -/
def updateLine (l : LineRec) (p1 : ℝ × ℝ) : LineRec :=
  ⟨l.p0, p1, l.selectable, l.movable, l.selected⟩

/-- `QLineF.length()` of the stored segment. -/
def lineLen (l : LineRec) : ℝ := hypotR (l.p1.1 - l.p0.1) (l.p1.2 - l.p0.2)

/-- `_finish_line` (canvas.py lines 308-314): the line is removed from the
scene when its length is below 1, otherwise it persists unchanged. -/
def finishLine (l : LineRec) : Option LineRec :=
  if lineLen l < 1 then none else some l

lemma finishLine_example :
    finishLine (updateLine (mkLineItem (0, 0) (0, 0)) (20, 0)) =
      some ⟨(0, 0), (20, 0), false, false, false⟩ := by
  unfold finishLine updateLine mkLineItem lineLen
  dsimp only
  rw [show (20 : ℝ) - 0 = 20 by norm_num, show (0 : ℝ) - 0 = 0 by norm_num,
    hypotR_twenty]
  rw [if_neg (by norm_num : ¬ (20 : ℝ) < 1)]

/-! ## Pen tool (canvas.py `_start_pen`/`_continue_pen`/`_finish_pen`) -/

/-- One element of the built `QPainterPath`. -/
inductive PathElem
  | moveTo (p : ℝ × ℝ)
  | quadTo (c p : ℝ × ℝ)
  | lineTo (p : ℝ × ℝ)

/-- The pen stroke state: the path under construction, the last recorded
raw point, and the flags set by `_start_pen` (the path item is made
selectable but never selected). -/
structure PenStroke where
  path : List PathElem
  last : ℝ × ℝ
  selectable : Bool
  selected : Bool

/-- `QPointF.manhattanLength()`. -/
def manhattanLength (p : ℝ × ℝ) : ℝ := |p.1| + |p.2|

/-- `_start_pen` (canvas.py lines 317-332): snap the press point unless
Alt is held, start the path there; the item is selectable and initially
unselected. -/
def startPen (pos : ℝ × ℝ) (alt : Bool) : PenStroke :=
  let p := if alt then pos else snapPoint pos 20
  ⟨[PathElem.moveTo p], p, true, false⟩

/-- `_continue_pen` (canvas.py lines 334-348): snap the current point
unless Alt is held, ignore moves below the 2-px jitter threshold,
otherwise append a quadratic segment with control = last raw point and
endpoint = midpoint(last, cur). -/
def continuePen (st : PenStroke) (pos : ℝ × ℝ) (alt : Bool) : PenStroke :=
  let cur := if alt then pos else snapPoint pos 20
  if manhattanLength (cur.1 - st.last.1, cur.2 - st.last.2) < 2 then st
  else
    ⟨st.path ++ [PathElem.quadTo st.last
        ((st.last.1 + cur.1) * 0.5, (st.last.2 + cur.2) * 0.5)],
      cur, st.selectable, st.selected⟩

/-- `_finish_pen` (canvas.py lines 350-358): append a final straight
segment to the last raw point. -/
def finishPen (st : PenStroke) : PenStroke :=
  ⟨st.path ++ [PathElem.lineTo st.last], st.last, st.selectable, st.selected⟩

/-- The pen item built by a whole press-move-release gesture. -/
def penGesture (pos : ℝ × ℝ) (moves : List (ℝ × ℝ)) (alt : Bool) : PenStroke :=
  finishPen (moves.foldl (fun st c => continuePen st c alt) (startPen pos alt))

lemma continuePen_selected (st : PenStroke) (pos : ℝ × ℝ) (alt : Bool) :
    (continuePen st pos alt).selected = st.selected := by
  unfold continuePen
  dsimp only
  split <;> split <;> rfl

lemma penGesture_selected (pos : ℝ × ℝ) (moves : List (ℝ × ℝ)) (alt : Bool) :
    (penGesture pos moves alt).selected = false := by
  unfold penGesture finishPen
  dsimp only
  have h := foldl_preserves (fun st : PenStroke => st.selected = false)
    (fun st c => continuePen st c alt)
    (fun st c hst => by
      show (continuePen st c alt).selected = false
      rw [continuePen_selected]; exact hst)
    moves (startPen pos alt) (by rfl)
  exact h

/-! ## Claim C1 -/

/-- C1 (amended): for every accepted center/start/end triple and every
modifier combination, the finalized sweep magnitude is at most 360°; it is
strictly positive whenever the major-arc (Shift) modifier is held, and
strictly below 360° when it is not.  Without Shift the magnitude can be
exactly 0 (when the end click lies at the same angle as the start), so the
originally claimed lower bound fails. -/
theorem C1_arc_sweep_range (c s e : ℝ × ℝ) (ctrl alt shift : Bool) (a : ArcFinal)
    (h : arcFinalize c s e ctrl alt shift = some a) :
    |a.sweep| ≤ 360 ∧ (shift = true → 0 < |a.sweep|) ∧
      (shift = false → |a.sweep| < 360) := by
  unfold arcFinalize at h
  by_cases hr : hypotR (s.1 - c.1) (s.2 - c.2) < 1
  · rw [if_pos hr] at h
    exact absurd h (by simp)
  · rw [if_neg hr] at h
    obtain rfl : _ = a := Option.some.inj h
    have hb := finalSweep_bounds
      (ccw_span (deg_from s c) (deg_from (arcEndPoint e alt) c))
      (ccw_span_nonneg _ _) (ccw_span_lt _ _) ctrl shift
    simpa using hb

/-- C1 witness: the range theorem applied to the concrete finalized arc
with center `(0,0)`, start `(20,0)`, end `(20,0)`, no modifiers. -/
theorem C1_witness :
    |(ArcFinal.mk (0, 0) 20 0 0 true).sweep| ≤ 360 ∧
      ((false : Bool) = true → 0 < |(ArcFinal.mk (0, 0) 20 0 0 true).sweep|) ∧
      ((false : Bool) = false → |(ArcFinal.mk (0, 0) 20 0 0 true).sweep| < 360) :=
  C1_arc_sweep_range (0, 0) (20, 0) (20, 0) false false false _ arcFinalize_example

/-- C1 counterexample: with center `(0,0)`, start `(20,0)` (radius 20,
accepted) and the final click at the start point itself, with neither Ctrl
nor Shift held, the finalized arc has signed sweep 0, whose magnitude is
not strictly greater than 0° — refuting the claimed range (0°, 360°]. -/
theorem C1_counterexample :
    (arcFinalize (0, 0) (20, 0) (20, 0) false false false).map ArcFinal.sweep =
        some 0 ∧
      ¬ (0 < |(0 : ℝ)|) := by
  constructor
  · rw [arcFinalize_example]
    rfl
  · simp

/-! ## Claim C3 -/

/-- C3 (amended): items finalized by the Line and Pen tools are unselected
at creation, but the Arc tool selects its finalized item
(`arc.setSelected(True)`), which is consistent with palette-dropped items
(they are also selected on placement). -/
theorem C3_item_selection (p0 p1 pos : ℝ × ℝ) (alt : Bool)
    (moves : List (ℝ × ℝ)) (c s e : ℝ × ℝ) (ctrl alt2 shift : Bool)
    (lf : LineRec) (af : ArcFinal)
    (hl : finishLine (updateLine (mkLineItem p0 p0) p1) = some lf)
    (ha : arcFinalize c s e ctrl alt2 shift = some af) :
    lf.selected = false ∧ (penGesture pos moves alt).selected = false ∧
      af.selected = true := by
  refine ⟨?_, penGesture_selected _ _ _, ?_⟩
  · unfold finishLine at hl
    by_cases h : lineLen (updateLine (mkLineItem p0 p0) p1) < 1
    · rw [if_pos h] at hl
      exact absurd hl (by simp)
    · rw [if_neg h] at hl
      obtain rfl := Option.some.inj hl
      rfl
  · unfold arcFinalize at ha
    by_cases h : hypotR (s.1 - c.1) (s.2 - c.2) < 1
    · rw [if_pos h] at ha
      exact absurd ha (by simp)
    · rw [if_neg h] at ha
      obtain rfl := Option.some.inj ha
      rfl

/-- C3 witness: the selection theorem applied to a concrete finished line
(from `(0,0)` to `(20,0)`), a concrete pen gesture, and the concrete
finalized arc. -/
theorem C3_witness :
    (LineRec.mk (0, 0) (20, 0) false false false).selected = false ∧
      (penGesture (0, 0) [] false).selected = false ∧
      (ArcFinal.mk (0, 0) 20 0 0 true).selected = true :=
  C3_item_selection (0, 0) (20, 0) (0, 0) false [] (0, 0) (20, 0) (20, 0)
    false false false _ _ finishLine_example arcFinalize_example

/-- C3 counterexample: the arc finalized at center `(0,0)`, start `(20,0)`,
end `(20,0)` is selected at creation, refuting the claim that every item
finalized by Line, Pen, or Arc is unselected. -/
theorem C3_counterexample :
    ¬ (∀ a : ArcFinal,
        arcFinalize (0, 0) (20, 0) (20, 0) false false false = some a →
          a.selected = false) := by
  intro h
  have hsel := h _ arcFinalize_example
  simp at hsel

/-! ## Tool management (canvas.py `set_tool`, `_reset_arc`,
`_make_eraser_circle`, `_remove_eraser_circle`) -/

/-- The view state touched by `set_tool`: the active tool name, the drag
mode, the line/pen gesture state, the eraser preview circle, and the arc
gesture state with its transient preview items (presence in the scene is
modelled as a Boolean). -/
structure ViewState where
  tool : String
  rubberBandDrag : Bool
  drawing_line : Bool
  line_item : Bool
  drawing_pen : Bool
  pen_item : Bool
  erasing : Bool
  eraser_circle : Bool
  arc_stage : ℕ
  arc_center : ℝ × ℝ
  arc_start : ℝ × ℝ
  arc_preview : Bool
  arc_center_dot : Bool
  arc_start_dot : Bool
  arc_end_dot : Bool
  arc_radius_preview : Bool

/-- `_reset_arc` (canvas.py lines 413-424): stage back to 0, points
cleared, and all five transient arc preview items removed. -/
def reset_arc (s : ViewState) : ViewState :=
  { s with
    arc_stage := 0
    arc_center := (0, 0)
    arc_start := (0, 0)
    arc_preview := false
    arc_center_dot := false
    arc_start_dot := false
    arc_end_dot := false
    arc_radius_preview := false }

/-- `_make_eraser_circle`: creates the eraser cursor circle if absent. -/
def make_eraser_circle (s : ViewState) : ViewState :=
  { s with eraser_circle := true }

/-- `_remove_eraser_circle`: removes the eraser cursor circle. -/
def remove_eraser_circle (s : ViewState) : ViewState :=
  { s with eraser_circle := false }

/-- `set_tool(name)` (canvas.py lines 166-184): stores the tool name, sets
the drag mode, then per branch creates or removes the eraser circle and
resets the arc gesture — but only on the branches that do so in the code:
switching to the eraser keeps the arc state, and nothing ever touches the
line or pen gesture state. -/
def set_tool (s : ViewState) (name : String) : ViewState :=
  let s1 := { s with
    tool := name
    rubberBandDrag :=
      ¬(name = "line" ∨ name = "pen" ∨ name = "eraser" ∨ name = "arc") }
  if name = "eraser" then make_eraser_circle s1
  else if name = "pen" ∨ name = "line" ∨ name = "arc" then
    (if name ≠ "arc" then reset_arc (remove_eraser_circle s1)
     else remove_eraser_circle s1)
  else reset_arc (remove_eraser_circle s1)

/-- A state in the middle of an arc gesture: stage 2 with the center and
start dots, the preview path, and the radius guide present, reached by
clicking a center and then a start point with the Arc tool. -/
def midArcState : ViewState :=
  ⟨"arc", false, false, false, false, false, false, false, 2, (0, 0), (20, 0),
    true, true, true, false, true⟩

/-! ## Claim C4 -/

/-- C4 (amended): `set_tool` resets the arc gesture and removes its
transient preview items exactly when the new tool is neither the eraser
nor the arc tool; switching to the eraser preserves the whole arc gesture
state (its transients are deliberately protected — the eraser's exclusion
list covers them), and no tool switch ever clears an in-progress line or
pen gesture or removes their preview items. -/
theorem C4_set_tool (s : ViewState) (name : String) :
    (name ≠ "eraser" → name ≠ "arc" →
      (set_tool s name).arc_stage = 0 ∧
      (set_tool s name).arc_preview = false ∧
      (set_tool s name).arc_center_dot = false ∧
      (set_tool s name).arc_start_dot = false ∧
      (set_tool s name).arc_end_dot = false ∧
      (set_tool s name).arc_radius_preview = false) ∧
    (name = "eraser" →
      (set_tool s name).arc_stage = s.arc_stage ∧
      (set_tool s name).arc_preview = s.arc_preview ∧
      (set_tool s name).arc_center_dot = s.arc_center_dot ∧
      (set_tool s name).arc_start_dot = s.arc_start_dot ∧
      (set_tool s name).arc_end_dot = s.arc_end_dot ∧
      (set_tool s name).arc_radius_preview = s.arc_radius_preview) ∧
    ((set_tool s name).drawing_line = s.drawing_line ∧
      (set_tool s name).line_item = s.line_item ∧
      (set_tool s name).drawing_pen = s.drawing_pen ∧
      (set_tool s name).pen_item = s.pen_item) := by
  unfold set_tool make_eraser_circle remove_eraser_circle reset_arc
  by_cases he : name = "eraser"
  · subst he
    simp
  · rw [if_neg he]
    by_cases hm : name = "pen" ∨ name = "line" ∨ name = "arc"
    · rw [if_pos hm]
      by_cases ha : name = "arc"
      · rw [if_neg (by simpa using ha)]
        simp [he, ha]
      · rw [if_pos (by simpa using ha)]
        simp [he, ha]
    · rw [if_neg hm]
      have ha : name ≠ "arc" := fun h => hm (Or.inr (Or.inr h))
      simp [he, ha]

/-- C4 witness: the tool-switch theorem applied to the mid-arc state and
the switch to the select tool. -/
theorem C4_witness :
    ("select" ≠ "eraser" → "select" ≠ "arc" →
      (set_tool midArcState "select").arc_stage = 0 ∧
      (set_tool midArcState "select").arc_preview = false ∧
      (set_tool midArcState "select").arc_center_dot = false ∧
      (set_tool midArcState "select").arc_start_dot = false ∧
      (set_tool midArcState "select").arc_end_dot = false ∧
      (set_tool midArcState "select").arc_radius_preview = false) ∧
    ("select" = "eraser" →
      (set_tool midArcState "select").arc_stage = midArcState.arc_stage ∧
      (set_tool midArcState "select").arc_preview = midArcState.arc_preview ∧
      (set_tool midArcState "select").arc_center_dot = midArcState.arc_center_dot ∧
      (set_tool midArcState "select").arc_start_dot = midArcState.arc_start_dot ∧
      (set_tool midArcState "select").arc_end_dot = midArcState.arc_end_dot ∧
      (set_tool midArcState "select").arc_radius_preview
        = midArcState.arc_radius_preview) ∧
    ((set_tool midArcState "select").drawing_line = midArcState.drawing_line ∧
      (set_tool midArcState "select").line_item = midArcState.line_item ∧
      (set_tool midArcState "select").drawing_pen = midArcState.drawing_pen ∧
      (set_tool midArcState "select").pen_item = midArcState.pen_item) :=
  C4_set_tool midArcState "select"

/-- C4 counterexample: from a state in the middle of an arc gesture
(stage 2, preview dots and radius guide in the scene), switching to the
eraser tool via `set_tool` leaves the arc gesture at stage 2 with its
center dot, start dot, preview path, and radius guide still present —
refuting the claim that every tool switch cancels the in-progress gesture
and removes its transient preview items. -/
theorem C4_counterexample :
    (set_tool midArcState "eraser").arc_stage = 2 ∧
      (set_tool midArcState "eraser").arc_center_dot = true ∧
      (set_tool midArcState "eraser").arc_start_dot = true ∧
      (set_tool midArcState "eraser").arc_preview = true ∧
      (set_tool midArcState "eraser").arc_radius_preview = true := by
  unfold set_tool make_eraser_circle midArcState
  norm_num

/-! ## Rotate handle (handles.py `RotateHandle`) -/

/-- The pointer angle recorded at press time (handles.py line 245):
`atan2(p.y() - center.y(), p.x() - center.x())`, in radians. -/
def rotPressAngle (center p : ℝ × ℝ) : ℝ :=
  atan2 (p.2 - center.2) (p.1 - center.1)

/-- `RotateHandle.mouseMoveEvent` (handles.py lines 250-259): the new
rotation is the press-time rotation plus the degree difference between the
current pointer angle and the press-time pointer angle, taken modulo 360. -/
def rotMouseMove (startAngle pressAngle : ℝ) (center p : ℝ × ℝ) : ℝ :=
  pymod (startAngle + (rotPressAngle center p - pressAngle) * 180 / Real.pi) 360

/-- One rotate-handle drag: the overlay center and pointer position at
press time, and the per-move overlay centers and pointer positions. -/
structure RotDrag where
  pressCenter : ℝ × ℝ
  pressPoint : ℝ × ℝ
  moves : List ((ℝ × ℝ) × (ℝ × ℝ))

/-- The stored angle after one drag: every move rewrites the angle from
the drag's press-time data, so the last move wins (an empty drag leaves
the angle unchanged). -/
def rotDragAngle (angle0 : ℝ) (d : RotDrag) : ℝ :=
  d.moves.foldl
    (fun _ m => rotMouseMove angle0 (rotPressAngle d.pressCenter d.pressPoint)
      m.1 m.2) angle0

/-- The stored angle after a sequence of rotate drags. -/
def rotDragsAngle (angle0 : ℝ) (ds : List RotDrag) : ℝ :=
  ds.foldl rotDragAngle angle0

lemma rotMouseMove_mem (startAngle pressAngle : ℝ) (center p : ℝ × ℝ) :
    0 ≤ rotMouseMove startAngle pressAngle center p ∧
      rotMouseMove startAngle pressAngle center p < 360 :=
  ⟨pymod_nonneg _, pymod_lt _⟩

lemma rotDragAngle_mem (angle0 : ℝ) (d : RotDrag)
    (h : 0 ≤ angle0 ∧ angle0 < 360) :
    0 ≤ rotDragAngle angle0 d ∧ rotDragAngle angle0 d < 360 := by
  unfold rotDragAngle
  exact foldl_preserves (fun a => 0 ≤ a ∧ a < 360) _
    (fun b m _ => rotMouseMove_mem _ _ _ _) d.moves angle0 h

/-! ## Claim C5 -/

/-- C5: on each rotate-handle move the new rotation is the press-time
rotation plus the pointer-angle difference in degrees, reduced modulo 360
into [0°, 360°) — this is `rotMouseMove` by definition, and its value
always lies in [0°, 360°); consequently, starting from a stored angle in
[0°, 360°) (the initial value 0.0 qualifies), the angle after any sequence
of rotate drags still lies in [0°, 360°). -/
theorem C5_rotation_normalized (angle0 : ℝ) (ds : List RotDrag)
    (h0 : 0 ≤ angle0) (h1 : angle0 < 360) :
    (0 ≤ rotDragsAngle angle0 ds ∧ rotDragsAngle angle0 ds < 360) ∧
      (∀ startAngle pressAngle : ℝ, ∀ center p : ℝ × ℝ,
        0 ≤ rotMouseMove startAngle pressAngle center p ∧
          rotMouseMove startAngle pressAngle center p < 360) := by
  constructor
  · unfold rotDragsAngle
    exact foldl_preserves (fun a => 0 ≤ a ∧ a < 360) rotDragAngle
      (fun b d hb => rotDragAngle_mem b d hb) ds angle0 ⟨h0, h1⟩
  · intro startAngle pressAngle center p
    exact rotMouseMove_mem _ _ _ _

/-- C5 witness: the normalization theorem applied at initial angle 0 with
a single drag (press at `(1,0)` around center `(0,0)`, one move). -/
theorem C5_witness :
    (0 ≤ rotDragsAngle 0 [⟨(0, 0), (1, 0), [((0, 0), (0, 1))]⟩] ∧
      rotDragsAngle 0 [⟨(0, 0), (1, 0), [((0, 0), (0, 1))]⟩] < 360) ∧
      (∀ startAngle pressAngle : ℝ, ∀ center p : ℝ × ℝ,
        0 ≤ rotMouseMove startAngle pressAngle center p ∧
          rotMouseMove startAngle pressAngle center p < 360) :=
  C5_rotation_normalized 0 [⟨(0, 0), (1, 0), [((0, 0), (0, 1))]⟩]
    (by norm_num) (by norm_num)

/-! ## Resize handles (handles.py `Handle`) -/

/-- The eight resize-handle roles. -/
inductive Role
  | N | S | E | W | NE | NW | SE | SW
deriving DecidableEq

/-- Numerical epsilon used in `Handle.mouseMoveEvent` (handles.py
line 194). -/
def EPS : ℝ := 1 / 1000000

/-- The x-axis scale ratio computed in `Handle.mouseMoveEvent` (handles.py
lines 195-208): stays 1 for the N/S handles; for the other roles it is
`cur.x / press.x` when `|press.x| > EPS` and 1 otherwise. -/
def scaleRatioX (role : Role) (press cur : ℝ × ℝ) : ℝ :=
  match role with
  | .N | .S => 1
  | _ => if EPS < |press.1| then cur.1 / press.1 else 1

/-- The y-axis scale ratio: stays 1 for the E/W handles; for the other
roles it is `cur.y / press.y` when `|press.y| > EPS` and 1 otherwise. -/
def scaleRatioY (role : Role) (press cur : ℝ × ℝ) : ℝ :=
  match role with
  | .E | .W => 1
  | _ => if EPS < |press.2| then cur.2 / press.2 else 1

/-- `Handle.mouseMoveEvent` (handles.py lines 189-214): the new per-axis
scales are the press-time scales times the axis ratios, clamped to
[0.1, 10.0] on each axis independently. -/
def handleMouseMove (role : Role) (press cur : ℝ × ℝ) (s0x s0y : ℝ) : ℝ × ℝ :=
  (clamp (s0x * scaleRatioX role press cur) 0.1 10,
    clamp (s0y * scaleRatioY role press cur) 0.1 10)

/-- One resize-handle drag: the handle's role, the press-time reference
vector (pointer position in the target's local frame relative to the
bounding-box center), and the per-move current local vectors. -/
structure ResizeDrag where
  role : Role
  pressLocal : ℝ × ℝ
  moves : List (ℝ × ℝ)

/-- The per-axis scales after one drag: each move recomputes both scales
from the scales recorded at press time, so the last move wins. -/
def resizeDragScales (s0 : ℝ × ℝ) (d : ResizeDrag) : ℝ × ℝ :=
  d.moves.foldl (fun _ cur => handleMouseMove d.role d.pressLocal cur s0.1 s0.2)
    s0

/-- The per-axis scales after a sequence of resize drags. -/
def resizeDragsScales (s0 : ℝ × ℝ) (ds : List ResizeDrag) : ℝ × ℝ :=
  ds.foldl resizeDragScales s0

/-- Membership of both axis scales in [0.1, 10]. -/
def scalesInRange (s : ℝ × ℝ) : Prop :=
  0.1 ≤ s.1 ∧ s.1 ≤ 10 ∧ 0.1 ≤ s.2 ∧ s.2 ≤ 10

lemma handleMouseMove_mem (role : Role) (press cur : ℝ × ℝ) (s0x s0y : ℝ) :
    scalesInRange (handleMouseMove role press cur s0x s0y) := by
  unfold handleMouseMove scalesInRange
  have h1 := clamp_mem (s0x * scaleRatioX role press cur) 0.1 10 (by norm_num)
  have h2 := clamp_mem (s0y * scaleRatioY role press cur) 0.1 10 (by norm_num)
  exact ⟨h1.1, h1.2, h2.1, h2.2⟩

lemma resizeDragScales_mem (s0 : ℝ × ℝ) (d : ResizeDrag)
    (h : scalesInRange s0) : scalesInRange (resizeDragScales s0 d) := by
  unfold resizeDragScales
  exact foldl_preserves scalesInRange _
    (fun b cur _ => handleMouseMove_mem d.role d.pressLocal cur s0.1 s0.2)
    d.moves s0 h

/-! ## Claim C6 -/

/-- C6: after any sequence of resize-handle drags on a target whose
per-axis scales start in [0.1, 10.0], both axis scales remain in
[0.1, 10.0]; clamping is applied on each axis independently on every
move. -/
theorem C6_scale_clamp (s0 : ℝ × ℝ) (ds : List ResizeDrag)
    (h : scalesInRange s0) : scalesInRange (resizeDragsScales s0 ds) := by
  unfold resizeDragsScales
  exact foldl_preserves scalesInRange resizeDragScales
    (fun b d hb => resizeDragScales_mem b d hb) ds s0 h

/-- C6 witness: the clamp theorem applied to initial scales `(1, 1)` and a
single east-handle drag moving the pointer to triple the reference
x-component. -/
theorem C6_witness :
    scalesInRange (resizeDragsScales (1, 1) [⟨Role.E, (40, 0), [(120, 0)]⟩]) :=
  C6_scale_clamp (1, 1) [⟨Role.E, (40, 0), [(120, 0)]⟩]
    (by unfold scalesInRange; norm_num)

/-! ## Claim C7 -/

/-- C7: whenever the press-time reference component along an axis has
magnitude at most the epsilon, no scale ratio is taken on that axis (the
ratio stays 1) and the resulting scale on that axis equals the press-time
scale, for press-time scales in the reachable range [0.1, 10.0]. -/
theorem C7_epsilon_guard (role : Role) (press cur : ℝ × ℝ) (s0x s0y : ℝ)
    (hx1 : 0.1 ≤ s0x) (hx2 : s0x ≤ 10) (hy1 : 0.1 ≤ s0y) (hy2 : s0y ≤ 10) :
    (|press.1| ≤ EPS → (handleMouseMove role press cur s0x s0y).1 = s0x) ∧
      (|press.2| ≤ EPS → (handleMouseMove role press cur s0x s0y).2 = s0y) := by
  constructor
  · intro h
    have hr : scaleRatioX role press cur = 1 := by
      unfold scaleRatioX
      cases role <;> first
        | rfl
        | (rw [if_neg (not_lt.mpr h)])
    unfold handleMouseMove
    rw [hr, mul_one]
    exact clamp_eq_self _ _ _ hx1 hx2
  · intro h
    have hr : scaleRatioY role press cur = 1 := by
      unfold scaleRatioY
      cases role <;> first
        | rfl
        | (rw [if_neg (not_lt.mpr h)])
    unfold handleMouseMove
    rw [hr, mul_one]
    exact clamp_eq_self _ _ _ hy1 hy2

/-- C7 witness: the epsilon-guard theorem applied to the east handle with
a press-time reference vector on the vertical center line. -/
theorem C7_witness :
    (|((0 : ℝ), (0 : ℝ)).1| ≤ EPS →
      (handleMouseMove Role.E ((0 : ℝ), (0 : ℝ)) (5, 5) 1 1).1 = 1) ∧
      (|((0 : ℝ), (0 : ℝ)).2| ≤ EPS →
        (handleMouseMove Role.E ((0 : ℝ), (0 : ℝ)) (5, 5) 1 1).2 = 1) :=
  C7_epsilon_guard Role.E ((0 : ℝ), (0 : ℝ)) (5, 5) 1 1
    (by norm_num) (by norm_num) (by norm_num) (by norm_num)

/-! ## Eraser (canvas.py `_erase_at`)

The eraser model uses rational coordinates so that concrete runs are
decidable; an item's shape is modelled by the set of its points, sampled
as a finite list. -/

/-- A scene item as seen by `_erase_at`: its shape (a finite sample of
points), whether it is one of the erasable drawable types, and whether it
is one of the protected transient items (eraser circle, overlay or its
children, arc preview items). -/
structure EraserItem where
  shape : List (ℚ × ℚ)
  drawable : Bool
  transient : Bool
deriving DecidableEq

/-- Whether a shape intersects the eraser query region actually used by
the code: the axis-aligned square `QRectF(pos.x - 16, pos.y - 16, 32, 32)`
passed to `scene.items(rect)`. -/
def shapeHitsRect (pos : ℚ × ℚ) (shape : List (ℚ × ℚ)) : Bool :=
  shape.any fun p =>
    decide (pos.1 - 16 ≤ p.1 ∧ p.1 ≤ pos.1 + 16 ∧
      pos.2 - 16 ≤ p.2 ∧ p.2 ≤ pos.2 + 16)

/-- Whether a shape intersects the circle of radius 16 around the pointer
(the eraser's visual cursor, which the spec claims is the query region). -/
def shapeHitsCircle (pos : ℚ × ℚ) (shape : List (ℚ × ℚ)) : Bool :=
  shape.any fun p =>
    decide ((p.1 - pos.1) ^ 2 + (p.2 - pos.2) ^ 2 ≤ 16 ^ 2)

/-- Whether `_erase_at` removes an item: its shape intersects the query
rectangle, it is not one of the protected transient items, and it is one
of the drawable types. -/
def eraseHit (pos : ℚ × ℚ) (it : EraserItem) : Bool :=
  shapeHitsRect pos it.shape && !it.transient && it.drawable

/-- `_erase_at` (canvas.py lines 383-410): every item whose shape
intersects the query rectangle is removed, unless it is transient or not
one of the drawable types. -/
def erase_at (pos : ℚ × ℚ) (items : List EraserItem) : List EraserItem :=
  items.filter fun it => !(eraseHit pos it)

/-! ## Claim C2 -/

/-- C2 (amended): while erasing, a persistent drawable item is deleted iff
its shape intersects the axis-aligned 32×32 square centered at the
pointer (the bounding rectangle of the eraser circle) — not the circle
itself.  Any item meeting the inscribed circle is still deleted (the
circle is contained in the square), but an item can lie entirely outside
the circle and be deleted anyway. -/
theorem C2_eraser_square (pos : ℚ × ℚ) (items : List EraserItem)
    (it : EraserItem) (h : it ∈ items) :
    (it ∉ erase_at pos items ↔
      shapeHitsRect pos it.shape = true ∧ it.transient = false ∧
        it.drawable = true) ∧
      (shapeHitsCircle pos it.shape = true → shapeHitsRect pos it.shape = true) := by
  constructor
  · have key : it ∈ erase_at pos items ↔ eraseHit pos it = false := by
      unfold erase_at
      rw [List.mem_filter]
      constructor
      · rintro ⟨-, hb⟩
        simpa using hb
      · intro hb
        exact ⟨h, by rw [hb]; rfl⟩
    rw [show (it ∉ erase_at pos items) = ¬(it ∈ erase_at pos items) from rfl, key]
    rcases Bool.eq_false_or_eq_true (shapeHitsRect pos it.shape) with h1 | h1 <;>
      rcases Bool.eq_false_or_eq_true it.transient with h2 | h2 <;>
        rcases Bool.eq_false_or_eq_true it.drawable with h3 | h3 <;>
          simp [eraseHit, h1, h2, h3]
  · intro hc
    simp only [shapeHitsCircle, List.any_eq_true, decide_eq_true_eq] at hc
    obtain ⟨p, hp, hineq⟩ := hc
    simp only [shapeHitsRect, List.any_eq_true, decide_eq_true_eq]
    refine ⟨p, hp, ?_, ?_, ?_, ?_⟩
    · nlinarith [sq_nonneg (p.2 - pos.2), sq_nonneg (p.1 - pos.1 + 16)]
    · nlinarith [sq_nonneg (p.2 - pos.2), sq_nonneg (p.1 - pos.1 - 16)]
    · nlinarith [sq_nonneg (p.1 - pos.1), sq_nonneg (p.2 - pos.2 + 16)]
    · nlinarith [sq_nonneg (p.1 - pos.1), sq_nonneg (p.2 - pos.2 - 16)]

/-- C2 witness: the square characterization applied to a concrete
drawable item whose single point `(15, 15)` lies inside the square. -/
theorem C2_witness :
    (EraserItem.mk [(15, 15)] true false ∉
        erase_at (0, 0) [EraserItem.mk [(15, 15)] true false] ↔
      shapeHitsRect (0, 0) [(15, 15)] = true ∧ false = false ∧ true = true) ∧
      (shapeHitsCircle (0, 0) [(15, 15)] = true →
        shapeHitsRect (0, 0) [(15, 15)] = true) :=
  C2_eraser_square (0, 0) [EraserItem.mk [(15, 15)] true false]
    (EraserItem.mk [(15, 15)] true false) (by simp)

/-- C2 counterexample: with the pointer at the origin, a drawable,
non-transient item consisting of the single point `(15, 15)` is deleted by
`_erase_at` even though its distance from the pointer is `√450 > 16`, so
its shape lies entirely outside the eraser's circular region — refuting
the claim that items entirely outside the circle are never deleted. -/
theorem C2_counterexample :
    erase_at (0, 0) [EraserItem.mk [(15, 15)] true false] = [] ∧
      shapeHitsCircle (0, 0) [(15, 15)] = false := by
  have hA : shapeHitsRect (0, 0) [(15, 15)] = true := by
    simp only [shapeHitsRect, List.any_cons, List.any_nil, Bool.or_false,
      decide_eq_true_eq]
    norm_num
  have hC : shapeHitsCircle (0, 0) [(15, 15)] = false := by
    simp only [shapeHitsCircle, List.any_cons, List.any_nil, Bool.or_false,
      decide_eq_false_iff_not]
    norm_num
  have hHit : eraseHit (0, 0) (EraserItem.mk [(15, 15)] true false) = true := by
    simp only [eraseHit]
    rw [hA]
    rfl
  refine ⟨?_, hC⟩
  unfold erase_at
  simp only [List.filter_cons, List.filter_nil, hHit, Bool.not_true,
    Bool.false_eq_true, if_false]

/-! ## Palette drop (canvas.py `dropEvent`) and overlay handles
(handles.py `TransformOverlay._ensure_handles`) -/

/-- The roles for which `_ensure_handles` creates resize handles
(handles.py line 138). -/
def overlayResizeRoles : List Role :=
  [Role.N, Role.S, Role.E, Role.W, Role.NE, Role.NW, Role.SE, Role.SW]

/-- Number of handles owned by a `TransformOverlay`: one resize handle per
role plus the rotate handle. -/
def overlayHandleCount : ℕ := overlayResizeRoles.length + 1

/-- The observable result of a palette drop. -/
structure DropResult where
  pos : ℝ × ℝ
  width : ℝ
  height : ℝ
  selected : Bool
  overlayAttached : Bool
  handleCount : ℕ

/-- `dropEvent` for the "Rectangle" tag (canvas.py lines 680-715): a
default 120×80 `RectItem` is created, positioned at the drop point
(grid-snapped unless Alt is held), selected, and when the Select tool is
active the transform overlay is attached with its handles. -/
def dropRectangle (scenePt : ℝ × ℝ) (alt : Bool) (tool : String) : DropResult :=
  { pos := if alt then scenePt else snapPoint scenePt 20
    width := 120
    height := 80
    selected := true
    overlayAttached := tool = "select"
    handleCount := if tool = "select" then overlayHandleCount else 0 }

lemma pyRound_of_lt_half (x : ℝ) (k : ℤ) (h1 : (k : ℝ) ≤ x)
    (h2 : x < k + 1/2) : pyRound x = k := by
  have hfl : ⌊x⌋ = k := Int.floor_eq_iff.mpr ⟨h1, by linarith⟩
  unfold pyRound
  rw [Int.fract, hfl, if_pos (by linarith)]

lemma pyRound_of_gt_half (x : ℝ) (k : ℤ) (h1 : (k : ℝ) + 1/2 < x)
    (h2 : x < k + 1) : pyRound x = k + 1 := by
  have hfl : ⌊x⌋ = k := Int.floor_eq_iff.mpr ⟨by linarith, by linarith⟩
  unfold pyRound
  rw [Int.fract, hfl, if_neg (by linarith), if_pos (by linarith)]

lemma pyRound_half (m : ℤ) : pyRound ((m : ℝ) + 1/2) = if Even m then m else m + 1 := by
  have hfl : ⌊(m : ℝ) + 1/2⌋ = m :=
    Int.floor_eq_iff.mpr ⟨by linarith, by linarith⟩
  have hfr : Int.fract ((m : ℝ) + 1/2) = 1/2 := by
    rw [Int.fract, hfl]
    ring
  unfold pyRound
  rw [hfr, hfl, if_neg (by norm_num), if_neg (by norm_num)]

lemma snapCoord_103 : snapCoord 103 20 = 100 := by
  unfold snapCoord
  push_cast
  rw [pyRound_of_lt_half (103/20 : ℝ) 5 (by norm_num) (by norm_num)]
  norm_num

lemma snapCoord_57 : snapCoord 57 20 = 60 := by
  unfold snapCoord
  push_cast
  rw [pyRound_of_gt_half (57/20 : ℝ) 2 (by norm_num) (by norm_num)]
  norm_num

/-! ## Claim C8 -/

/-- C8: dropping the palette tag "Rectangle" at scene point `(103, 57)`
with grid size 20 and no bypass modifier, while the Select tool is active,
places the rectangle at `(100, 60)` with default size 120×80, leaves it
selected, and attaches the transform overlay carrying exactly 9 handles
(8 resize + 1 rotate). -/
theorem C8_drop_rectangle :
    dropRectangle (103, 57) false "select" =
      ⟨(100, 60), 120, 80, true, true, 9⟩ := by
  unfold dropRectangle snapPoint overlayHandleCount overlayResizeRoles
  simp only [Bool.false_eq_true, if_false, if_pos rfl]
  rw [snapCoord_103, snapCoord_57]
  simp

/-! ## Claim C9 -/

lemma snapCoord_idem (x : ℝ) (g : ℤ) (hg : (g : ℝ) ≠ 0) :
    snapCoord (snapCoord x g) g = snapCoord x g :=
  snapCoord_int_mul (pyRound (x / (g : ℝ))) g hg

/-- C9: grid snapping is idempotent — for every point and every positive
grid size, snapping a snapped point leaves it unchanged. -/
theorem C9_snap_idempotent (p : ℝ × ℝ) (g : ℤ) (hg : 0 < g) :
    snapPoint (snapPoint p g) g = snapPoint p g := by
  have hgne : (g : ℝ) ≠ 0 := by
    exact_mod_cast hg.ne'
  unfold snapPoint
  rw [Prod.mk.injEq]
  exact ⟨snapCoord_idem p.1 g hgne, snapCoord_idem p.2 g hgne⟩

/-- C9 witness: idempotence at the concrete point `(30, 10)` with grid
size 20. -/
theorem C9_witness :
    (0 : ℤ) < 20 ∧
      snapPoint (snapPoint (30, 10) 20) 20 = snapPoint (30, 10) 20 :=
  ⟨by norm_num, C9_snap_idempotent (30, 10) 20 (by norm_num)⟩

/-! ## Claim C10 -/

/-- C10: `snap_to_grid` resolves exact half-grid ties by rounding half to
even — a coordinate exactly halfway between two grid multiples snaps to
the multiple whose quotient by the grid size is even. -/
theorem C10_half_to_even (g m : ℤ) (x : ℝ) (hg : 0 < g)
    (hx : x = ((m : ℝ) + 1/2) * (g : ℝ)) :
    snapCoord x g = (((if Even m then m else m + 1) : ℤ) : ℝ) * (g : ℝ) ∧
      Even (if Even m then m else m + 1) := by
  have hgne : (g : ℝ) ≠ 0 := by
    exact_mod_cast hg.ne'
  constructor
  · unfold snapCoord
    rw [hx, mul_div_assoc, div_self hgne, mul_one, pyRound_half]
  · by_cases h : Even m
    · rw [if_pos h]
      exact h
    · rw [if_neg h]
      exact Int.even_add_one.mpr h

/-- C10 witness: with grid size 20, the coordinate 10 (halfway between 0
and 20) snaps to 0 (quotient 0, even) and the coordinate 30 (halfway
between 20 and 40) snaps to 40 (quotient 2, even). -/
theorem C10_witness :
    ((0 : ℤ) < 20 ∧ (10 : ℝ) = ((0 : ℝ) + 1/2) * 20 ∧ snapCoord 10 20 = 0) ∧
      ((0 : ℤ) < 20 ∧ (30 : ℝ) = ((1 : ℝ) + 1/2) * 20 ∧ snapCoord 30 20 = 40) := by
  constructor
  · refine ⟨by norm_num, by norm_num, ?_⟩
    have h := C10_half_to_even 20 0 10 (by norm_num) (by push_cast; norm_num)
    rw [h.1]
    norm_num
  · refine ⟨by norm_num, by norm_num, ?_⟩
    have h := C10_half_to_even 20 1 30 (by norm_num) (by push_cast; norm_num)
    rw [h.1]
    norm_num
